import Mathlib

/-!
Shallow embedding of the mcp-proxy endpoint translation engine and resilient
transport layer (Go sources: client.go, prompt.go, backend.go, the tool and
resource handlers), together with proofs checking the natural-language
specification against it.

Conventions of the embedding:
* Go `time.Duration` values and timestamps are modelled as `Nat`
  (nanoseconds); `time.Since(t)` at instant `now` is `now - t`.
* Go `map[string]any` argument bags are modelled as association lists
  `List (String × AVal)` with first-match lookup; `AVal` covers the value
  shapes relevant here and `govFmt` models `fmt.Sprintf "%v"` on them.
* The HTTP transport is modelled as a function from the attempt index to the
  outcome of that single network attempt.
* Go `error` results become `Except`/`Option` with structured error values
  carrying exactly the data that the corresponding `fmt.Errorf` embeds.
-/

namespace MCPProxy

/-- Value shapes that can sit in a caller argument bag (`map[string]any`). -/
inductive AVal where
  | str (s : String)
  | num (n : Int)
  | bool (b : Bool)
deriving DecidableEq, Repr

/-- Model of Go `fmt.Sprintf "%v"` on an argument-bag value. -/
def govFmt : AVal → String
  | .str s => s
  | .num n => toString n
  | .bool b => if b then "true" else "false"

/-- First-match lookup in an association list, modelling Go map indexing
`value, exists := m[k]`. -/
def alookup (k : String) : List (String × AVal) → Option AVal
  | [] => none
  | (k', v) :: rest => if k' = k then some v else alookup k rest

/-- `Value` type alias from backend.go (`type Value string`). -/
abbrev Value := String

/-- `DYNAMIC Value = "dynamic"` from backend.go. -/
def DYNAMIC : Value := "dynamic"

/-- `CONSTANT Value = "constant"` from backend.go. -/
def CONSTANT : Value := "constant"

/-- `Header` from backend.go. -/
structure Header where
  type : Value
  name : String
  value : String
deriving DecidableEq, Repr

/-- `Param` from backend.go. -/
structure Param where
  dataType : String
  valueType : Value
  description : String
  identifier : String
  required : Bool
  value : String
deriving DecidableEq, Repr

/-- `Endpoint` from backend.go (logger-free projection of the fields the
handlers read). -/
structure Endpoint where
  capability : String
  mode : String
  name : String
  method : String
  path : String
  description : String
  headers : List Header
  waitResponse : Bool
  responseTimeout : Nat
  bodyParams : List Param
  queryParameters : List Param
  pathParameters : List Param
deriving DecidableEq, Repr

/-- `Backend` from backend.go. -/
structure Backend where
  baseURL : String
  defaultHeaders : List Header
  endpoints : List Endpoint
deriving DecidableEq, Repr

/-! ## Circuit breaker (client.go) -/

/-- `CircuitBreaker` from client.go (mutex dropped: the embedding is the
sequentialised state). -/
structure CircuitBreaker where
  failureCount : Nat
  lastFailTime : Nat
  maxFailures : Nat
  resetTimeout : Nat
  state : String
deriving DecidableEq, Repr

/-- `NewCircuitBreaker` from client.go; Go zero values for the
unset fields. -/
def NewCircuitBreaker (maxFailures resetTimeout : Nat) : CircuitBreaker :=
  { failureCount := 0
    lastFailTime := 0
    maxFailures := maxFailures
    resetTimeout := resetTimeout
    state := "closed" }

/-- `CircuitBreaker.CanExecute` from client.go, with `time.Since` made
explicit via `now`. -/
def CircuitBreaker.CanExecute (cb : CircuitBreaker) (now : Nat) : Bool :=
  if cb.state = "closed" then true
  else if cb.state = "open" ∧ now - cb.lastFailTime > cb.resetTimeout then true
  else false

/-- `CircuitBreaker.RecordSuccess` from client.go. -/
def CircuitBreaker.RecordSuccess (cb : CircuitBreaker) : CircuitBreaker :=
  { cb with failureCount := 0, state := "closed" }

/-- `CircuitBreaker.RecordFailure` from client.go; `time.Now()` is the
explicit `now`. -/
def CircuitBreaker.RecordFailure (cb : CircuitBreaker) (now : Nat) : CircuitBreaker :=
  let fc := cb.failureCount + 1
  { cb with
      failureCount := fc
      lastFailTime := now
      state := if fc ≥ cb.maxFailures then "open" else cb.state }

/-! ## HTTP client with retries (client.go) -/

/-- `ClientConfig` from client.go. -/
structure ClientConfig where
  timeout : Nat
  maxRetries : Nat
  retryDelay : Nat
  maxIdleConns : Nat
  maxConnsPerHost : Nat
deriving DecidableEq, Repr

/-- One second in the embedding's duration unit (nanoseconds, as in Go). -/
def second : Nat := 1000000000

/-- `DefaultClientConfig` from client.go. -/
def DefaultClientConfig : ClientConfig :=
  { timeout := 30 * second
    maxRetries := 3
    retryDelay := 1 * second
    maxIdleConns := 100
    maxConnsPerHost := 10 }

/-- Outcome of one `c.client.Do(req)` network attempt. -/
inductive AttemptResult where
  | transportError (msg : String)
  | response (status : Nat)
deriving DecidableEq, Repr

/-- How the retry loop of `DoWithCircuitBreaker` exits: early return on a
terminal success, or fall-through with the last attempt's transport error or
last attempt's `≥ 500` response. -/
inductive LoopExit where
  | success (status : Nat)
  | errExit (msg : String)
  | respExit (status : Nat)
deriving DecidableEq, Repr

/-- The `for attempt := 0; attempt <= maxRetries; attempt++` loop of
`HTTPClient.DoWithCircuitBreaker`, run from attempt index `attempt`.
Returns the exit, the number of network attempts performed, and the list of
back-off sleep durations (`retryDelay * (attempt+1)` before each retry). -/
def retryLoop (maxRetries retryDelay : Nat) (transport : Nat → AttemptResult)
    (attempt : Nat) : LoopExit × Nat × List Nat :=
  match transport attempt with
  | .response s =>
      if s < 500 then (.success s, 1, [])
      else if _h : attempt < maxRetries then
        let r := retryLoop maxRetries retryDelay transport (attempt + 1)
        (r.1, r.2.1 + 1, retryDelay * (attempt + 1) :: r.2.2)
      else (.respExit s, 1, [])
  | .transportError m =>
      if _h : attempt < maxRetries then
        let r := retryLoop maxRetries retryDelay transport (attempt + 1)
        (r.1, r.2.1 + 1, retryDelay * (attempt + 1) :: r.2.2)
      else (.errExit m, 1, [])
termination_by maxRetries - attempt

/-- Result of `DoWithCircuitBreaker` as seen by its caller. -/
inductive DoOutcome where
  | circuitOpen
  | success (status : Nat)
  | failedResponse (status : Nat)
  | transportFailure (attempts : Nat) (msg : String)
deriving DecidableEq, Repr

/-- Full observable effect of one `DoWithCircuitBreaker` call. -/
structure DoResult where
  outcome : DoOutcome
  attempts : Nat
  sleeps : List Nat
  cb : Option CircuitBreaker
deriving DecidableEq, Repr

/-- `HTTPClient.DoWithCircuitBreaker` from client.go: gate on the breaker,
run the retry loop, record the terminal outcome on the breaker. -/
def DoWithCircuitBreaker (cfg : ClientConfig) (cb : Option CircuitBreaker)
    (now : Nat) (transport : Nat → AttemptResult) : DoResult :=
  match cb with
  | some b =>
      if b.CanExecute now then
        let r := retryLoop cfg.maxRetries cfg.retryDelay transport 0
        match r.1 with
        | .success s =>
            ⟨.success s, r.2.1, r.2.2, some b.RecordSuccess⟩
        | .errExit m =>
            ⟨.transportFailure (cfg.maxRetries + 1) m, r.2.1, r.2.2,
              some (b.RecordFailure now)⟩
        | .respExit s =>
            ⟨.failedResponse s, r.2.1, r.2.2, some (b.RecordFailure now)⟩
      else ⟨.circuitOpen, 0, [], some b⟩
  | none =>
      let r := retryLoop cfg.maxRetries cfg.retryDelay transport 0
      match r.1 with
      | .success s => ⟨.success s, r.2.1, r.2.2, none⟩
      | .errExit m => ⟨.transportFailure (cfg.maxRetries + 1) m, r.2.1, r.2.2, none⟩
      | .respExit s => ⟨.failedResponse s, r.2.1, r.2.2, none⟩

/-! ## Client manager (client.go) -/

/-- `ClientManager` from client.go; clients are kept as configs since the
embedding needs only the retry parameters. -/
structure ClientManager where
  clients : List (String × ClientConfig)
  defaultClient : ClientConfig
  circuitBreaker : CircuitBreaker
deriving DecidableEq, Repr

/-- `NewClientManager` from client.go. -/
def NewClientManager : ClientManager :=
  { clients := []
    defaultClient := DefaultClientConfig
    circuitBreaker := NewCircuitBreaker 5 (30 * second) }

/-- `ClientManager.GetClient` from client.go. -/
def ClientManager.GetClient (cm : ClientManager) (name : String) : ClientConfig :=
  match cm.clients.find? (fun p => p.1 = name) with
  | some p => p.2
  | none => cm.defaultClient

/-- `ClientManager.DoRequest` from client.go: route through the per-name
client but always through the manager's single circuit breaker; the result
also carries the manager with the updated breaker state. -/
def ClientManager.DoRequest (cm : ClientManager) (name : String) (now : Nat)
    (transport : Nat → AttemptResult) : DoResult × ClientManager :=
  let r := DoWithCircuitBreaker (cm.GetClient name) (some cm.circuitBreaker) now transport
  (r, { cm with circuitBreaker := r.cb.getD cm.circuitBreaker })

/-! ## String replacement (model of Go `strings.ReplaceAll`) -/

/-- `hasLead pat l` is true when `pat` is an initial segment of `l`. -/
def hasLead : List Char → List Char → Bool
  | [], _ => true
  | _ :: _, [] => false
  | a :: as, b :: bs => a = b && hasLead as bs

/-- Left-to-right, non-overlapping replacement of `old` by `new` in a
character list, as `strings.ReplaceAll` does for non-empty `old` (the
handlers only ever call it with the non-empty pattern `\x7bidentifier\x7d`).
The fuel argument makes the recursion structural; each step consumes at
least one character, so fuel `s.length` always suffices. -/
def replaceAllAux (old new : List Char) : Nat → List Char → List Char
  | 0, s => s
  | _ + 1, [] => []
  | fuel + 1, c :: rest =>
      if old ≠ [] ∧ hasLead old (c :: rest) = true then
        new ++ replaceAllAux old new fuel ((c :: rest).drop old.length)
      else c :: replaceAllAux old new fuel rest

/-- `strings.ReplaceAll` on `String`. -/
def strReplaceAll (s old new : String) : String :=
  ⟨replaceAllAux old.data new.data s.data.length s.data⟩

/-! ## Tool handler (HTTPToolHandler) -/

/-- Structured form of the build errors raised by the handlers'
`buildURL`/`buildRequestBody` (`fmt.Errorf "required ... parameter not
provided"`), carrying the parameter identifier the message embeds. -/
inductive BuildError where
  | missingPathParam (id : String)
  | missingBodyParam (id : String)
deriving DecidableEq, Repr

/-- `HTTPToolHandler` from the tool-handler source file (logger and raw
`http.Client` dropped; the transport is passed explicitly to `Handler`). -/
structure HTTPToolHandler where
  endpoint : Endpoint
  backend : Backend
deriving Repr

/-- The path-parameter substitution loop of `HTTPToolHandler.buildURL`. -/
def toolBuildURLLoop (arguments : List (String × AVal)) :
    List Param → String → Except BuildError String
  | [], url => .ok url
  | p :: rest, url =>
      match alookup p.identifier arguments with
      | none =>
          if p.required then .error (.missingPathParam p.identifier)
          else toolBuildURLLoop arguments rest url
      | some v =>
          toolBuildURLLoop arguments rest
            (strReplaceAll url ("\x7b" ++ p.identifier ++ "\x7d") (govFmt v))

/-- `HTTPToolHandler.buildURL`: start from `backend.BaseURL + endpoint.Path`,
substitute each present path parameter, fail on a required missing one. -/
def HTTPToolHandler.buildURL (h : HTTPToolHandler)
    (arguments : List (String × AVal)) : Except BuildError String :=
  toolBuildURLLoop arguments h.endpoint.pathParameters
    (h.backend.baseURL ++ h.endpoint.path)

/-- `HTTPToolHandler.buildQueryParams`: collect `identifier=value` for every
query parameter present in the argument bag, join with `&`; no required
check is performed here. -/
def HTTPToolHandler.buildQueryParams (h : HTTPToolHandler)
    (arguments : List (String × AVal)) : String :=
  String.intercalate "&"
    (h.endpoint.queryParameters.filterMap fun p =>
      (alookup p.identifier arguments).map fun v => p.identifier ++ "=" ++ govFmt v)

/-- Go map insert `m[k] = v` on an association list: overwrite the existing
binding of `k` or append a new one. -/
def setAssoc : List (String × AVal) → String → AVal → List (String × AVal)
  | [], k, v => [(k, v)]
  | (k', w) :: rest, k, v =>
      if k' = k then (k, v) :: rest else (k', w) :: setAssoc rest k v

/-- The body-accumulation loop of `HTTPToolHandler.buildRequestBody`: every
parameter is read from the argument bag (the tool handler never consults
`ValueType` or `Value` here). -/
def toolBodyLoop (arguments : List (String × AVal)) :
    List Param → List (String × AVal) → Except BuildError (List (String × AVal))
  | [], acc => .ok acc
  | p :: rest, acc =>
      match alookup p.identifier arguments with
      | some v => toolBodyLoop arguments rest (setAssoc acc p.identifier v)
      | none =>
          if p.required then .error (.missingBodyParam p.identifier)
          else toolBodyLoop arguments rest acc

/-- `HTTPToolHandler.buildRequestBody`: `none` models the `nil` body (no
body parameters declared, or none resolved); otherwise the JSON object the
body marshals, as its key-value map. -/
def HTTPToolHandler.buildRequestBody (h : HTTPToolHandler)
    (arguments : List (String × AVal)) : Except BuildError (Option (List (String × AVal))) :=
  if h.endpoint.bodyParams = [] then .ok none
  else
    match toolBodyLoop arguments h.endpoint.bodyParams [] with
    | .error e => .error e
    | .ok body => if body = [] then .ok none else .ok (some body)

/-- `req.Header.Set` on an association list of header name-value pairs. -/
def setHeaderKV : List (String × String) → String → String → List (String × String)
  | [], n, v => [(n, v)]
  | (k, w) :: rest, n, v =>
      if k = n then (n, v) :: rest else (k, w) :: setHeaderKV rest n v

/-- The `addHeaders` method, textually identical in the tool, resource and
prompt handlers: backend defaults first, then endpoint headers (constant set
directly, dynamic looked up by header *name* in the argument bag), then
`Content-Type: application/json` forced when the endpoint declares body
parameters. -/
def addHeaders (backend : Backend) (endpoint : Endpoint)
    (arguments : List (String × AVal)) : List (String × String) :=
  let h1 := backend.defaultHeaders.foldl
    (fun acc hd => setHeaderKV acc hd.name hd.value) []
  let h2 := endpoint.headers.foldl
    (fun acc hd =>
      if hd.type = CONSTANT then setHeaderKV acc hd.name hd.value
      else if hd.type = DYNAMIC then
        match alookup hd.name arguments with
        | some v => setHeaderKV acc hd.name (govFmt v)
        | none => acc
      else acc) h1
  if endpoint.bodyParams.length > 0 then
    setHeaderKV h2 "Content-Type" "application/json"
  else h2

/-- Text content of an MCP tool result (`mcp.TextContent`). -/
structure TextContent where
  type : String
  text : String
deriving DecidableEq, Repr

/-- `mcp.CallToolResult` restricted to the fields the handler produces. -/
structure CallToolResult where
  content : List TextContent
  isErrorFlag : Bool
deriving DecidableEq, Repr

/-- A single-quote character, used by the Go format strings. -/
def apos : String := String.singleton (Char.ofNat 39)

/-- The success text of `HTTPToolHandler.handleResponse`. -/
def toolSuccessText (name body : String) : String :=
  "Tool " ++ apos ++ name ++ apos ++ " executed successfully. Response: " ++ body

/-- The failure text of `HTTPToolHandler.handleResponse`. -/
def toolFailText (name : String) (status : Nat) (body : String) : String :=
  "Tool " ++ apos ++ name ++ apos ++ " failed with status " ++ toString status
    ++ ": " ++ body

/-- `HTTPToolHandler.handleResponse`: 2xx yields a plain result; anything
else yields a result with the error flag set — never a hard error. -/
def toolHandleResponse (name : String) (status : Nat) (body : String) : CallToolResult :=
  if 200 ≤ status ∧ status < 300 then
    ⟨[⟨"text", toolSuccessText name body⟩], false⟩
  else
    ⟨[⟨"text", toolFailText name status body⟩], true⟩

/-- Outcome of one handler-level HTTP round trip. -/
inductive HTTPResult where
  | err (msg : String)
  | resp (status : Nat) (body : String)
deriving DecidableEq, Repr

/-- The outbound HTTP request a handler assembles before `client.Do`. -/
structure BuiltRequest where
  method : String
  url : String
  body : Option (List (String × AVal))
  headers : List (String × String)
deriving DecidableEq, Repr

/-- Invocation-level errors of `HTTPToolHandler.Handler` (each wraps the
inner error, as the `fmt.Errorf "failed to build ..."`, `"failed to create
HTTP request"` and `"HTTP request failed"` wrappers do). -/
inductive ToolErr where
  | urlError (e : BuildError)
  | bodyError (e : BuildError)
  | reqError (msg : String)
  | httpError (msg : String)
deriving DecidableEq, Repr

/-- `HTTPToolHandler.Handler`: build URL, query string and body, create the
request, add headers, then perform the HTTP call and interpret the response.
`newRequest` is the oracle modelling Go stdlib `http.NewRequestWithContext`
on the method and built URL: `some msg` is its error (invalid method,
malformed URL), on which the handler aborts with the wrapped error and zero
network attempts, before headers are added. The second component counts
network attempts, so that abort-before-send is observable. -/
def HTTPToolHandler.Handler (h : HTTPToolHandler)
    (arguments : List (String × AVal))
    (newRequest : String → String → Option String)
    (transport : BuiltRequest → HTTPResult) : Except ToolErr CallToolResult × Nat :=
  match h.buildURL arguments with
  | .error e => (.error (.urlError e), 0)
  | .ok url0 =>
      let q := h.buildQueryParams arguments
      let url := if q.length > 0 then url0 ++ "?" ++ q else url0
      match h.buildRequestBody arguments with
      | .error e => (.error (.bodyError e), 0)
      | .ok body =>
          match newRequest h.endpoint.method url with
          | some m => (.error (.reqError m), 0)
          | none =>
              let headers := addHeaders h.backend h.endpoint arguments
              match transport ⟨h.endpoint.method, url, body, headers⟩ with
              | .err m => (.error (.httpError m), 1)
              | .resp st b => (.ok (toolHandleResponse h.endpoint.name st b), 1)

/-! ## Resource handler (HTTPResourceHandler) -/

/-- The parameter-resolution snippet shared by the resource handler's
`buildURL`, `buildQueryParams` and `buildRequestBody`: a `CONSTANT` parameter
resolves to its declared `Value` and counts as present exactly when that
value is non-empty; otherwise the argument bag is consulted. -/
def resolveResourceParam (p : Param) (arguments : List (String × AVal)) : Option AVal :=
  if p.valueType = CONSTANT then
    if p.value ≠ "" then some (.str p.value) else none
  else alookup p.identifier arguments

/-- `HTTPResourceHandler` (logger and client manager dropped from the
record; the breaker-gated transport is modelled by `ClientManager.DoRequest`
above). -/
structure HTTPResourceHandler where
  endpoint : Endpoint
  backend : Backend
deriving Repr

/-- The path-parameter substitution loop of `HTTPResourceHandler.buildURL`,
resolving each parameter via `resolveResourceParam`. -/
def resourceBuildURLLoop (arguments : List (String × AVal)) :
    List Param → String → Except BuildError String
  | [], url => .ok url
  | p :: rest, url =>
      match resolveResourceParam p arguments with
      | none =>
          if p.required then .error (.missingPathParam p.identifier)
          else resourceBuildURLLoop arguments rest url
      | some v =>
          resourceBuildURLLoop arguments rest
            (strReplaceAll url ("\x7b" ++ p.identifier ++ "\x7d") (govFmt v))

/-- `HTTPResourceHandler.buildURL`. -/
def HTTPResourceHandler.buildURL (h : HTTPResourceHandler)
    (arguments : List (String × AVal)) : Except BuildError String :=
  resourceBuildURLLoop arguments h.endpoint.pathParameters
    (h.backend.baseURL ++ h.endpoint.path)

/-- `HTTPResourceHandler.buildQueryParams`. -/
def HTTPResourceHandler.buildQueryParams (h : HTTPResourceHandler)
    (arguments : List (String × AVal)) : String :=
  String.intercalate "&"
    (h.endpoint.queryParameters.filterMap fun p =>
      (resolveResourceParam p arguments).map fun v => p.identifier ++ "=" ++ govFmt v)

/-- The body-accumulation loop of `HTTPResourceHandler.buildRequestBody`. -/
def resourceBodyLoop (arguments : List (String × AVal)) :
    List Param → List (String × AVal) → Except BuildError (List (String × AVal))
  | [], acc => .ok acc
  | p :: rest, acc =>
      match resolveResourceParam p arguments with
      | some v => resourceBodyLoop arguments rest (setAssoc acc p.identifier v)
      | none =>
          if p.required then .error (.missingBodyParam p.identifier)
          else resourceBodyLoop arguments rest acc

/-- `HTTPResourceHandler.buildRequestBody`. -/
def HTTPResourceHandler.buildRequestBody (h : HTTPResourceHandler)
    (arguments : List (String × AVal)) : Except BuildError (Option (List (String × AVal))) :=
  if h.endpoint.bodyParams = [] then .ok none
  else
    match resourceBodyLoop arguments h.endpoint.bodyParams [] with
    | .error e => .error e
    | .ok body => if body = [] then .ok none else .ok (some body)

/-- `mcp.TextResourceContents`. -/
structure TextResourceContents where
  uri : String
  mimeType : String
  text : String
deriving DecidableEq, Repr

/-- Hard errors the resource handler can surface; `statusError` carries the
status and body that `fmt.Errorf "resource request failed with status %d:
%s"` embeds. -/
inductive ResourceErr where
  | urlError (e : BuildError)
  | bodyError (e : BuildError)
  | httpError (msg : String)
  | statusError (status : Nat) (body : String)
deriving DecidableEq, Repr

/-- `HTTPResourceHandler.handleResponse`: on 2xx, return the body as
`application/json` content when `json.Unmarshal` on it succeeds (the
`parsesAsJSON` oracle), otherwise as `text/plain`; on any other status,
return a hard error carrying the status and body. -/
def resourceHandleResponse (uri : String) (status : Nat) (body : String)
    (parsesAsJSON : Bool) : Except ResourceErr (List TextResourceContents) :=
  if 200 ≤ status ∧ status < 300 then
    if parsesAsJSON then .ok [⟨uri, "application/json", body⟩]
    else .ok [⟨uri, "text/plain", body⟩]
  else .error (.statusError status body)

/-! ## JSON values (model of `encoding/json` unmarshalled data) -/

/-- A JSON value as Go's `json.Unmarshal` produces into `interface{}`
(numbers simplified to integers; none of the handlers inspect numeric
values). -/
inductive Json where
  | null
  | jbool (b : Bool)
  | num (n : Int)
  | str (s : String)
  | arr (elems : List Json)
  | obj (fields : List (String × Json))
deriving Repr

/-- Go map lookup on JSON object fields. -/
def jlookup (k : String) : List (String × Json) → Option Json
  | [] => none
  | (k', v) :: rest => if k' = k then some v else jlookup k rest

/-- JSON string quoting (escaping of quote and backslash). -/
def jsonEscapeChar (c : Char) : String :=
  if c = '"' then "\\" ++ "\"" else if c = '\\' then "\\\\" else String.singleton c

/-- A JSON string literal. -/
def jsonQuote (s : String) : String :=
  "\"" ++ String.join (s.data.map jsonEscapeChar) ++ "\""

mutual

/-- Model of `json.Marshal` on an unmarshalled value (fields serialized in
stored order; Go orders map keys, which no claim here depends on). -/
def jsonSerialize : Json → String
  | .null => "null"
  | .jbool b => if b then "true" else "false"
  | .num n => toString n
  | .str s => jsonQuote s
  | .arr xs => "[" ++ String.intercalate "," (jsonSerializeList xs) ++ "]"
  | .obj fs => "\x7b" ++ String.intercalate "," (jsonSerializeFields fs) ++ "\x7d"

/-- Serialize the elements of a JSON array. -/
def jsonSerializeList : List Json → List String
  | [] => []
  | x :: xs => jsonSerialize x :: jsonSerializeList xs

/-- Serialize the fields of a JSON object. -/
def jsonSerializeFields : List (String × Json) → List String
  | [] => []
  | (k, v) :: fs => (jsonQuote k ++ ":" ++ jsonSerialize v) :: jsonSerializeFields fs

end

/-! ## Prompt handler (HTTPPromptHandler, prompt.go) -/

/-- `mcp.Role` (a string type; its zero value is the empty string). -/
abbrev Role := String

/-- `mcp.RoleUser`. -/
def RoleUser : Role := "user"

/-- `mcp.RoleAssistant`. -/
def RoleAssistant : Role := "assistant"

/-- `mcp.PromptMessage` restricted to the shapes the handler produces. -/
structure PromptMessage where
  role : Role
  content : TextContent
deriving DecidableEq, Repr

/-- `mcp.GetPromptResult` restricted to the fields the handler produces. -/
structure GetPromptResult where
  description : String
  messages : List PromptMessage
deriving DecidableEq, Repr

/-- Model of Go `strings.ToLower` (per-character lowering; the role strings
involved are ASCII, where the two agree). -/
def govToLower (s : String) : String := ⟨s.data.map Char.toLower⟩

/-- The role-parsing block of `HTTPPromptHandler.parsePromptMessage`: a
string role is lowercased and mapped to user/assistant with user as the
default; a missing role defaults to user; a present non-string role leaves
the zero value. -/
def parseRole (fields : List (String × Json)) : Role :=
  match jlookup "role" fields with
  | some (.str s) =>
      if govToLower s = "user" then RoleUser
      else if govToLower s = "assistant" then RoleAssistant
      else RoleUser
  | some _ => ""
  | none => RoleUser

/-- The content-parsing block of `HTTPPromptHandler.parsePromptMessage`:
a plain string, or an object with `type = "text"` and a string `text`;
anything else yields no content. -/
def parseContent (fields : List (String × Json)) : Option TextContent :=
  match jlookup "content" fields with
  | some (.str s) => some ⟨"text", s⟩
  | some (.obj cm) =>
      match jlookup "type" cm with
      | some (.str t) =>
          if t = "text" then
            match jlookup "text" cm with
            | some (.str txt) => some ⟨"text", txt⟩
            | _ => none
          else none
      | _ => none
  | _ => none

/-- `HTTPPromptHandler.parsePromptMessage`: returns `none` (message
dropped) exactly when no content was parsed. -/
def parsePromptMessage (fields : List (String × Json)) : Option PromptMessage :=
  match parseContent fields with
  | some c => some ⟨parseRole fields, c⟩
  | none => none

/-- The messages-extraction block of
`HTTPPromptHandler.parseStructuredPrompt`: iterate over the top-level
`messages` array, parsing object elements and skipping everything else. -/
def extractMessages (fields : List (String × Json)) : List PromptMessage :=
  match jlookup "messages" fields with
  | some (.arr xs) =>
      xs.filterMap fun j =>
        match j with
        | .obj mf => parsePromptMessage mf
        | _ => none
  | _ => []

/-- `HTTPPromptHandler.parseStructuredPrompt`: description from the
`description` field when it is a string, otherwise the generated default;
if zero messages survive, a single user message holding the re-serialized
JSON. -/
def parseStructuredPrompt (name : String) (fields : List (String × Json)) :
    GetPromptResult :=
  let desc :=
    match jlookup "description" fields with
    | some (.str s) => s
    | _ => "Generated prompt from " ++ name
  let msgs := extractMessages fields
  if msgs = [] then
    ⟨desc, [⟨RoleUser, ⟨"text", jsonSerialize (.obj fields)⟩⟩]⟩
  else ⟨desc, msgs⟩

/-- Hard errors the prompt handler can surface; `statusError` carries the
status and body that `fmt.Errorf "prompt request failed with status %d: %s"`
embeds. -/
inductive PromptErr where
  | urlError (e : BuildError)
  | bodyError (e : BuildError)
  | httpError (msg : String)
  | statusError (status : Nat) (body : String)
deriving DecidableEq, Repr

/-- `HTTPPromptHandler.handleResponse`: on 2xx, parse structurally when the
body unmarshals into a JSON object (`parsed = some fields`), otherwise
synthesize one user message holding the raw body; on any other status,
return a hard error carrying the status and body. -/
def promptHandleResponse (name : String) (status : Nat) (body : String)
    (parsed : Option (List (String × Json))) : Except PromptErr GetPromptResult :=
  if 200 ≤ status ∧ status < 300 then
    match parsed with
    | some fields => .ok (parseStructuredPrompt name fields)
    | none => .ok ⟨"Generated prompt from " ++ name, [⟨RoleUser, ⟨"text", body⟩⟩]⟩
  else .error (.statusError status body)

/-! ## Transports used in the retry-policy statements -/

/-- A backend that answers `503` on the first `N-1` attempts and `200` on
the `N`-th (attempt indices are 0-based). -/
def transport503then200 (N : Nat) : Nat → AttemptResult :=
  fun i => if i + 1 < N then .response 503 else .response 200

/-! ## Lemmas about the retry loop -/

theorem retryLoop_attempts_pos (m d : Nat) (t : Nat → AttemptResult) (a : Nat) :
    1 ≤ (retryLoop m d t a).2.1 := by
  rw [retryLoop]
  rcases t a with msg | s
  · dsimp only
    split
    · simp
    · simp
  · dsimp only
    split
    · simp
    · split
      · simp
      · simp

theorem retryLoop_attempts_le (m d : Nat) (t : Nat → AttemptResult) :
    ∀ k a, a ≤ m → m - a ≤ k → (retryLoop m d t a).2.1 ≤ m + 1 - a := by
  intro k
  induction k with
  | zero =>
      intro a ham ha
      have hlt : ¬ a < m := by omega
      rw [retryLoop]
      rcases t a with msg | s
      · dsimp only
        simp only [dif_neg hlt]
        show 1 ≤ m + 1 - a
        omega
      · dsimp only
        split
        · show 1 ≤ m + 1 - a
          omega
        · simp only [dif_neg hlt]
          show 1 ≤ m + 1 - a
          omega
  | succ k ih =>
      intro a ham ha
      rw [retryLoop]
      rcases t a with msg | s
      · dsimp only
        split
        · rename_i hlt
          have := ih (a + 1) (by omega) (by omega)
          show (retryLoop m d t (a + 1)).2.1 + 1 ≤ m + 1 - a
          omega
        · show 1 ≤ m + 1 - a
          omega
      · dsimp only
        split
        · show 1 ≤ m + 1 - a
          omega
        · split
          · rename_i hlt
            have := ih (a + 1) (by omega) (by omega)
            show (retryLoop m d t (a + 1)).2.1 + 1 ≤ m + 1 - a
            omega
          · show 1 ≤ m + 1 - a
            omega

theorem retryLoop_success_lt (m d : Nat) (t : Nat → AttemptResult) :
    ∀ k a s, m - a ≤ k → (retryLoop m d t a).1 = .success s → s < 500 := by
  intro k
  induction k with
  | zero =>
      intro a s ha h
      have hlt : ¬ a < m := by omega
      rw [retryLoop] at h
      rcases ht : t a with msg | st <;> rw [ht] at h <;> dsimp only at h
      · rw [dif_neg hlt] at h
        simp at h
      · by_cases h5 : st < 500
        · rw [if_pos h5] at h
          simp only [LoopExit.success.injEq] at h
          omega
        · rw [if_neg h5, dif_neg hlt] at h
          simp at h
  | succ k ih =>
      intro a s ha h
      rw [retryLoop] at h
      rcases ht : t a with msg | st <;> rw [ht] at h <;> dsimp only at h
      · by_cases hlt : a < m
        · rw [dif_pos hlt] at h
          exact ih (a + 1) s (by omega) h
        · rw [dif_neg hlt] at h
          simp at h
      · by_cases h5 : st < 500
        · rw [if_pos h5] at h
          simp only [LoopExit.success.injEq] at h
          omega
        · rw [if_neg h5] at h
          by_cases hlt : a < m
          · rw [dif_pos hlt] at h
            exact ih (a + 1) s (by omega) h
          · rw [dif_neg hlt] at h
            simp at h

theorem retryLoop_503then200 (m d N : Nat) (hN : N ≤ m + 1) :
    ∀ k j, j + k + 1 = N →
      retryLoop m d (transport503then200 N) j =
        (.success 200, k + 1, (List.range' (j + 1) k).map (fun i => d * i)) := by
  intro k
  induction k with
  | zero =>
      intro j hj
      rw [retryLoop]
      have ht : transport503then200 N j = .response 200 := by
        unfold transport503then200
        simp only [if_neg (by omega : ¬ j + 1 < N)]
      rw [ht]
      dsimp only
      rw [if_pos (by norm_num : (200 : Nat) < 500)]
      rfl
  | succ k ih =>
      intro j hj
      rw [retryLoop]
      have ht : transport503then200 N j = .response 503 := by
        unfold transport503then200
        simp only [if_pos (by omega : j + 1 < N)]
      rw [ht]
      dsimp only
      have hlt : j < m := by omega
      rw [if_neg (by norm_num : ¬ (503 : Nat) < 500), dif_pos hlt,
        ih (j + 1) (by omega)]
      have hr : List.range' (j + 1) (k + 1) = (j + 1) :: List.range' (j + 2) k := by
        simp [List.range'_succ]
      rw [hr]
      simp

theorem retryLoop_allErr (m d : Nat) (msg : String) :
    ∀ k j, j + k = m →
      retryLoop m d (fun _ => .transportError msg) j =
        (.errExit msg, k + 1, (List.range' (j + 1) k).map (fun i => d * i)) := by
  intro k
  induction k with
  | zero =>
      intro j hj
      rw [retryLoop]
      dsimp only
      rw [dif_neg (by omega : ¬ j < m)]
      rfl
  | succ k ih =>
      intro j hj
      rw [retryLoop]
      dsimp only
      rw [dif_pos (by omega : j < m), ih (j + 1) (by omega)]
      have hr : List.range' (j + 1) (k + 1) = (j + 1) :: List.range' (j + 2) k := by
        simp [List.range'_succ]
      rw [hr]
      simp

theorem retryLoop_all503 (m d : Nat) :
    ∀ k j, j + k = m →
      retryLoop m d (fun _ => .response 503) j =
        (.respExit 503, k + 1, (List.range' (j + 1) k).map (fun i => d * i)) := by
  intro k
  induction k with
  | zero =>
      intro j hj
      rw [retryLoop]
      dsimp only
      rw [if_neg (by norm_num : ¬ (503 : Nat) < 500), dif_neg (by omega : ¬ j < m)]
      rfl
  | succ k ih =>
      intro j hj
      rw [retryLoop]
      dsimp only
      rw [if_neg (by norm_num : ¬ (503 : Nat) < 500), dif_pos (by omega : j < m),
        ih (j + 1) (by omega)]
      have hr : List.range' (j + 1) (k + 1) = (j + 1) :: List.range' (j + 2) k := by
        simp [List.range'_succ]
      rw [hr]
      simp

theorem retryLoop_last (m d : Nat) (t : Nat → AttemptResult) :
    ∀ k a ex n sl, m - a ≤ k → retryLoop m d t a = (ex, n, sl) →
      (∀ msg, ex = .errExit msg → t (a + n - 1) = .transportError msg) ∧
      (∀ s, ex = .respExit s → t (a + n - 1) = .response s ∧ 500 ≤ s) := by
  intro k
  induction k with
  | zero =>
      intro a ex n sl ha heq
      have hlt : ¬ a < m := by omega
      rw [retryLoop] at heq
      rcases ht : t a with msg' | s'
      · rw [ht] at heq
        dsimp only at heq
        rw [dif_neg hlt] at heq
        simp only [Prod.mk.injEq] at heq
        obtain ⟨rfl, rfl, rfl⟩ := heq
        constructor
        · intro msg hx
          simp only [LoopExit.errExit.injEq] at hx
          subst hx
          rw [Nat.add_sub_cancel]
          exact ht
        · intro s hx
          exact absurd hx (by simp)
      · rw [ht] at heq
        dsimp only at heq
        by_cases h5 : s' < 500
        · rw [if_pos h5] at heq
          simp only [Prod.mk.injEq] at heq
          obtain ⟨rfl, rfl, rfl⟩ := heq
          constructor <;> intro x hx <;> exact absurd hx (by simp)
        · rw [if_neg h5, dif_neg hlt] at heq
          simp only [Prod.mk.injEq] at heq
          obtain ⟨rfl, rfl, rfl⟩ := heq
          constructor
          · intro msg hx
            exact absurd hx (by simp)
          · intro s hx
            simp only [LoopExit.respExit.injEq] at hx
            subst hx
            rw [Nat.add_sub_cancel]
            exact ⟨ht, by omega⟩
  | succ k ih =>
      intro a ex n sl ha heq
      rw [retryLoop] at heq
      rcases ht : t a with msg' | s'
      · rw [ht] at heq
        dsimp only at heq
        by_cases hlt : a < m
        · rw [dif_pos hlt] at heq
          simp only [Prod.mk.injEq] at heq
          obtain ⟨rfl, rfl, rfl⟩ := heq
          have hrec := ih (a + 1) (retryLoop m d t (a + 1)).1
            (retryLoop m d t (a + 1)).2.1 (retryLoop m d t (a + 1)).2.2
            (by omega) rfl
          constructor
          · intro msg hx
            have h' := hrec.1 msg hx
            have hpos := retryLoop_attempts_pos m d t (a + 1)
            have harith : a + ((retryLoop m d t (a + 1)).2.1 + 1) - 1 =
                a + 1 + (retryLoop m d t (a + 1)).2.1 - 1 := by omega
            rw [harith]
            exact h'
          · intro s hx
            have h' := hrec.2 s hx
            have hpos := retryLoop_attempts_pos m d t (a + 1)
            have harith : a + ((retryLoop m d t (a + 1)).2.1 + 1) - 1 =
                a + 1 + (retryLoop m d t (a + 1)).2.1 - 1 := by omega
            rw [harith]
            exact h'
        · rw [dif_neg hlt] at heq
          simp only [Prod.mk.injEq] at heq
          obtain ⟨rfl, rfl, rfl⟩ := heq
          constructor
          · intro msg hx
            simp only [LoopExit.errExit.injEq] at hx
            subst hx
            rw [Nat.add_sub_cancel]
            exact ht
          · intro s hx
            exact absurd hx (by simp)
      · rw [ht] at heq
        dsimp only at heq
        by_cases h5 : s' < 500
        · rw [if_pos h5] at heq
          simp only [Prod.mk.injEq] at heq
          obtain ⟨rfl, rfl, rfl⟩ := heq
          constructor <;> intro x hx <;> exact absurd hx (by simp)
        · rw [if_neg h5] at heq
          by_cases hlt : a < m
          · rw [dif_pos hlt] at heq
            simp only [Prod.mk.injEq] at heq
            obtain ⟨rfl, rfl, rfl⟩ := heq
            have hrec := ih (a + 1) (retryLoop m d t (a + 1)).1
              (retryLoop m d t (a + 1)).2.1 (retryLoop m d t (a + 1)).2.2
              (by omega) rfl
            constructor
            · intro msg hx
              have h' := hrec.1 msg hx
              have hpos := retryLoop_attempts_pos m d t (a + 1)
              have harith : a + ((retryLoop m d t (a + 1)).2.1 + 1) - 1 =
                  a + 1 + (retryLoop m d t (a + 1)).2.1 - 1 := by omega
              rw [harith]
              exact h'
            · intro s hx
              have h' := hrec.2 s hx
              have hpos := retryLoop_attempts_pos m d t (a + 1)
              have harith : a + ((retryLoop m d t (a + 1)).2.1 + 1) - 1 =
                  a + 1 + (retryLoop m d t (a + 1)).2.1 - 1 := by omega
              rw [harith]
              exact h'
          · rw [dif_neg hlt] at heq
            simp only [Prod.mk.injEq] at heq
            obtain ⟨rfl, rfl, rfl⟩ := heq
            constructor
            · intro msg hx
              exact absurd hx (by simp)
            · intro s hx
              simp only [LoopExit.respExit.injEq] at hx
              subst hx
              rw [Nat.add_sub_cancel]
              exact ⟨ht, by omega⟩

/-! ## Lemmas about the circuit breaker gate -/

theorem canExecute_false_of_open_within (cb : CircuitBreaker) (now : Nat)
    (hs : cb.state = "open") (hle : now - cb.lastFailTime ≤ cb.resetTimeout) :
    cb.CanExecute now = false := by
  unfold CircuitBreaker.CanExecute
  rw [hs]
  rw [if_neg (by decide : ¬ ("open" : String) = "closed"), if_neg]
  intro hcon
  exact absurd hcon.2 (by omega)

theorem canExecute_true_of_open_after (cb : CircuitBreaker) (now : Nat)
    (hs : cb.state = "open") (hgt : now - cb.lastFailTime > cb.resetTimeout) :
    cb.CanExecute now = true := by
  unfold CircuitBreaker.CanExecute
  rw [hs]
  rw [if_neg (by decide : ¬ ("open" : String) = "closed"), if_pos ⟨rfl, hgt⟩]

theorem doWithCircuitBreaker_blocked (cfg : ClientConfig) (cb : CircuitBreaker)
    (now : Nat) (t : Nat → AttemptResult) (hce : cb.CanExecute now = false) :
    DoWithCircuitBreaker cfg (some cb) now t = ⟨.circuitOpen, 0, [], some cb⟩ := by
  unfold DoWithCircuitBreaker
  dsimp only
  rw [hce]
  simp

theorem recordFailure_state_open (cb : CircuitBreaker) (now : Nat)
    (hs : cb.state = "open") : (cb.RecordFailure now).state = "open" := by
  unfold CircuitBreaker.RecordFailure
  dsimp only
  split
  · rfl
  · exact hs

theorem range'_one_map_mul (d k : Nat) :
    (List.range' 1 k).map (fun i => d * i) = (List.range k).map (fun i => d * (i + 1)) := by
  rw [List.range'_eq_map_range, List.map_map]
  apply List.map_congr_left
  intro i _
  simp [Nat.add_comm]

/-! ## Claim theorems: resilient transport -/

/-- C1: the circuit breaker starts Closed; recording a failure increments
`failureCount`, stamps the last-failure time and flips the state to Open
once the count reaches `maxFailures`; recording a success resets the count
and forces Closed; while Open and within `resetTimeout` of the last failure,
`CanExecute` is false and `DoWithCircuitBreaker` fails immediately with the
circuit-open outcome and zero network attempts; once `resetTimeout` has
elapsed a trial call is allowed, and its terminal failure re-arms the
blocking window while its success closes the breaker. -/
theorem C1_circuit_breaker_state_machine :
    (∀ m t, (NewCircuitBreaker m t).state = "closed" ∧
      (NewCircuitBreaker m t).failureCount = 0) ∧
    (∀ cb : CircuitBreaker, ∀ now,
      (cb.RecordFailure now).failureCount = cb.failureCount + 1 ∧
      (cb.RecordFailure now).lastFailTime = now ∧
      (cb.failureCount + 1 ≥ cb.maxFailures → (cb.RecordFailure now).state = "open")) ∧
    (∀ cb : CircuitBreaker,
      (cb.RecordSuccess).failureCount = 0 ∧ (cb.RecordSuccess).state = "closed") ∧
    (∀ cfg cb now t, cb.state = "open" → now - cb.lastFailTime ≤ cb.resetTimeout →
      cb.CanExecute now = false ∧
      DoWithCircuitBreaker cfg (some cb) now t = ⟨.circuitOpen, 0, [], some cb⟩) ∧
    (∀ cfg cb now t, cb.state = "open" → now - cb.lastFailTime > cb.resetTimeout →
      cb.CanExecute now = true ∧
      1 ≤ (DoWithCircuitBreaker cfg (some cb) now t).attempts ∧
      ((∀ s, (DoWithCircuitBreaker cfg (some cb) now t).outcome ≠ .success s) →
        (DoWithCircuitBreaker cfg (some cb) now t).cb = some (cb.RecordFailure now) ∧
        ∀ cfg' now' t', now' - now ≤ cb.resetTimeout →
          DoWithCircuitBreaker cfg' (some (cb.RecordFailure now)) now' t' =
            ⟨.circuitOpen, 0, [], some (cb.RecordFailure now)⟩) ∧
      (∀ s, (DoWithCircuitBreaker cfg (some cb) now t).outcome = .success s →
        (DoWithCircuitBreaker cfg (some cb) now t).cb = some cb.RecordSuccess ∧
        (cb.RecordSuccess).state = "closed")) := by
  refine ⟨fun m t => ⟨rfl, rfl⟩, ?_, fun cb => ⟨rfl, rfl⟩, ?_, ?_⟩
  · intro cb now
    refine ⟨rfl, rfl, fun hge => ?_⟩
    unfold CircuitBreaker.RecordFailure
    dsimp only
    rw [if_pos hge]
  · intro cfg cb now t hs hle
    have hce := canExecute_false_of_open_within cb now hs hle
    exact ⟨hce, doWithCircuitBreaker_blocked cfg cb now t hce⟩
  · intro cfg cb now t hs hgt
    have hce := canExecute_true_of_open_after cb now hs hgt
    refine ⟨hce, ?_, ?_, ?_⟩
    · rcases hr : (retryLoop cfg.maxRetries cfg.retryDelay t 0).1 with s | msg | s <;>
        simp [DoWithCircuitBreaker, hce, hr, retryLoop_attempts_pos]
    · intro hns
      have hcb : (DoWithCircuitBreaker cfg (some cb) now t).cb =
          some (cb.RecordFailure now) := by
        rcases hr : (retryLoop cfg.maxRetries cfg.retryDelay t 0).1 with s | msg | s
        · exact absurd (by simp [DoWithCircuitBreaker, hce, hr]) (hns s)
        · simp [DoWithCircuitBreaker, hce, hr]
        · simp [DoWithCircuitBreaker, hce, hr]
      refine ⟨hcb, fun cfg' now' t' hle' => ?_⟩
      apply doWithCircuitBreaker_blocked
      apply canExecute_false_of_open_within
      · exact recordFailure_state_open cb now hs
      · show now' - (cb.RecordFailure now).lastFailTime ≤ (cb.RecordFailure now).resetTimeout
        exact hle'
    · intro s hsucc
      rcases hr : (retryLoop cfg.maxRetries cfg.retryDelay t 0).1 with s' | msg | s'
      · exact ⟨by simp [DoWithCircuitBreaker, hce, hr], rfl⟩
      · exact absurd hsucc (by simp [DoWithCircuitBreaker, hce, hr])
      · exact absurd hsucc (by simp [DoWithCircuitBreaker, hce, hr])

/-- Witness for C1: a concrete Open breaker 20ns after its last failure,
with a 50ns reset timeout, blocks the call with zero attempts. -/
theorem C1_circuit_breaker_state_machine_witness :
    CircuitBreaker.CanExecute ⟨5, 100, 5, 50, "open"⟩ 120 = false ∧
    DoWithCircuitBreaker DefaultClientConfig (some ⟨5, 100, 5, 50, "open"⟩) 120
      (fun _ => .response 200) =
      ⟨.circuitOpen, 0, [], some ⟨5, 100, 5, 50, "open"⟩⟩ :=
  C1_circuit_breaker_state_machine.2.2.2.1 DefaultClientConfig
    ⟨5, 100, 5, 50, "open"⟩ 120 (fun _ => .response 200) rfl (by decide)

/-- C2: every `DoWithCircuitBreaker` call performs at most `maxRetries + 1`
attempts; a success outcome implies status `< 500` and a success recorded on
the breaker; a backend answering 503 for `N-1` calls then 200 yields success
with exactly `N` attempts and `N-1` linearly growing sleeps; an always-erroring
transport yields the transport failure wrapped with `maxRetries + 1`, and an
always-503 backend yields the last 503 response, both recording a failure. -/
theorem C2_retry_policy :
    (∀ cfg cb now t, (DoWithCircuitBreaker cfg cb now t).attempts ≤ cfg.maxRetries + 1) ∧
    (∀ cfg b now t s, (DoWithCircuitBreaker cfg (some b) now t).outcome = .success s →
      s < 500 ∧ (DoWithCircuitBreaker cfg (some b) now t).cb = some b.RecordSuccess) ∧
    (∀ cfg b now N, CircuitBreaker.CanExecute b now = true → 1 ≤ N →
      N ≤ cfg.maxRetries + 1 →
      DoWithCircuitBreaker cfg (some b) now (transport503then200 N) =
        ⟨.success 200, N, (List.range (N - 1)).map (fun i => cfg.retryDelay * (i + 1)),
          some b.RecordSuccess⟩) ∧
    (∀ cfg b now msg, CircuitBreaker.CanExecute b now = true →
      DoWithCircuitBreaker cfg (some b) now (fun _ => .transportError msg) =
        ⟨.transportFailure (cfg.maxRetries + 1) msg, cfg.maxRetries + 1,
          (List.range cfg.maxRetries).map (fun i => cfg.retryDelay * (i + 1)),
          some (b.RecordFailure now)⟩) ∧
    (∀ cfg b now, CircuitBreaker.CanExecute b now = true →
      DoWithCircuitBreaker cfg (some b) now (fun _ => .response 503) =
        ⟨.failedResponse 503, cfg.maxRetries + 1,
          (List.range cfg.maxRetries).map (fun i => cfg.retryDelay * (i + 1)),
          some (b.RecordFailure now)⟩) ∧
    (∀ cfg b now t k msg, CircuitBreaker.CanExecute b now = true →
      (DoWithCircuitBreaker cfg (some b) now t).outcome = .transportFailure k msg →
      k = cfg.maxRetries + 1 ∧
      t ((DoWithCircuitBreaker cfg (some b) now t).attempts - 1) =
        .transportError msg) ∧
    (∀ cfg b now t s, CircuitBreaker.CanExecute b now = true →
      (DoWithCircuitBreaker cfg (some b) now t).outcome = .failedResponse s →
      t ((DoWithCircuitBreaker cfg (some b) now t).attempts - 1) = .response s ∧
      500 ≤ s) := by
  have hatt : ∀ cfg : ClientConfig, ∀ t,
      (retryLoop cfg.maxRetries cfg.retryDelay t 0).2.1 ≤ cfg.maxRetries + 1 := by
    intro cfg t
    have := retryLoop_attempts_le cfg.maxRetries cfg.retryDelay t cfg.maxRetries 0
      (Nat.zero_le _) (by omega)
    omega
  refine ⟨?_, ?_, ?_, ?_, ?_, ?_, ?_⟩
  · intro cfg cb now t
    rcases cb with _ | b
    · rcases hr : (retryLoop cfg.maxRetries cfg.retryDelay t 0).1 with s | msg | s <;>
        simp [DoWithCircuitBreaker, hr] <;> exact hatt cfg t
    · by_cases hce : b.CanExecute now = true
      · rcases hr : (retryLoop cfg.maxRetries cfg.retryDelay t 0).1 with s | msg | s <;>
          simp [DoWithCircuitBreaker, hce, hr] <;> exact hatt cfg t
      · rw [doWithCircuitBreaker_blocked cfg b now t (by simpa using hce)]
        simp
  · intro cfg b now t s hsucc
    by_cases hce : b.CanExecute now = true
    · rcases hr : (retryLoop cfg.maxRetries cfg.retryDelay t 0).1 with s' | msg | s'
      · have hs' : s' = s := by
          have := hsucc
          simp [DoWithCircuitBreaker, hce, hr] at this
          exact this
        subst hs'
        refine ⟨retryLoop_success_lt cfg.maxRetries cfg.retryDelay t
          cfg.maxRetries 0 s' (by omega) hr, ?_⟩
        simp [DoWithCircuitBreaker, hce, hr]
      · exact absurd hsucc (by simp [DoWithCircuitBreaker, hce, hr])
      · exact absurd hsucc (by simp [DoWithCircuitBreaker, hce, hr])
    · rw [doWithCircuitBreaker_blocked cfg b now t (by simpa using hce)] at hsucc
      exact absurd hsucc (by simp)
  · intro cfg b now N hce h1 hN
    have hr := retryLoop_503then200 cfg.maxRetries cfg.retryDelay N hN (N - 1) 0
      (by omega)
    have hN' : N - 1 + 1 = N := by omega
    rw [hN'] at hr
    simp only [DoWithCircuitBreaker, hce, if_true, hr, Nat.zero_add, range'_one_map_mul]
  · intro cfg b now msg hce
    have hr := retryLoop_allErr cfg.maxRetries cfg.retryDelay msg cfg.maxRetries 0
      (by omega)
    simp only [DoWithCircuitBreaker, hce, if_true, hr, Nat.zero_add, range'_one_map_mul]
  · intro cfg b now hce
    have hr := retryLoop_all503 cfg.maxRetries cfg.retryDelay cfg.maxRetries 0
      (by omega)
    simp only [DoWithCircuitBreaker, hce, if_true, hr, Nat.zero_add, range'_one_map_mul]
  · intro cfg b now t k msg hce hout
    have hlast := retryLoop_last cfg.maxRetries cfg.retryDelay t cfg.maxRetries 0
      (retryLoop cfg.maxRetries cfg.retryDelay t 0).1
      (retryLoop cfg.maxRetries cfg.retryDelay t 0).2.1
      (retryLoop cfg.maxRetries cfg.retryDelay t 0).2.2 (by omega) rfl
    rcases hr : (retryLoop cfg.maxRetries cfg.retryDelay t 0).1 with s' | msg' | s'
    · exact absurd hout (by simp [DoWithCircuitBreaker, hce, hr])
    · have hkm : k = cfg.maxRetries + 1 ∧ msg = msg' := by
        have := hout
        simp [DoWithCircuitBreaker, hce, hr] at this
        exact ⟨this.1.symm, this.2.symm⟩
      obtain ⟨rfl, rfl⟩ := hkm
      refine ⟨rfl, ?_⟩
      have h' := hlast.1 msg hr
      rw [Nat.zero_add] at h'
      have hatts : (DoWithCircuitBreaker cfg (some b) now t).attempts =
          (retryLoop cfg.maxRetries cfg.retryDelay t 0).2.1 := by
        simp [DoWithCircuitBreaker, hce, hr]
      rw [hatts]
      exact h'
    · exact absurd hout (by simp [DoWithCircuitBreaker, hce, hr])
  · intro cfg b now t s hce hout
    have hlast := retryLoop_last cfg.maxRetries cfg.retryDelay t cfg.maxRetries 0
      (retryLoop cfg.maxRetries cfg.retryDelay t 0).1
      (retryLoop cfg.maxRetries cfg.retryDelay t 0).2.1
      (retryLoop cfg.maxRetries cfg.retryDelay t 0).2.2 (by omega) rfl
    rcases hr : (retryLoop cfg.maxRetries cfg.retryDelay t 0).1 with s' | msg' | s'
    · exact absurd hout (by simp [DoWithCircuitBreaker, hce, hr])
    · exact absurd hout (by simp [DoWithCircuitBreaker, hce, hr])
    · have hss : s = s' := by
        have := hout
        simp [DoWithCircuitBreaker, hce, hr] at this
        exact this.symm
      subst hss
      have h' := hlast.2 s hr
      rw [Nat.zero_add] at h'
      have hatts : (DoWithCircuitBreaker cfg (some b) now t).attempts =
          (retryLoop cfg.maxRetries cfg.retryDelay t 0).2.1 := by
        simp [DoWithCircuitBreaker, hce, hr]
      rw [hatts]
      exact h'

/-- Witness for C2: max_retries 2, delay 7, a breaker that may execute, and a
backend failing twice with 503 then answering 200: success after 3 attempts
with sleeps 7 and 14. -/
theorem C2_retry_policy_witness :
    DoWithCircuitBreaker ⟨0, 2, 7, 0, 0⟩ (some (NewCircuitBreaker 3 5)) 0
      (transport503then200 3) =
      ⟨.success 200, 3, [7, 14], some ((NewCircuitBreaker 3 5).RecordSuccess)⟩ := by
  have h := C2_retry_policy.2.2.1 ⟨0, 2, 7, 0, 0⟩ (NewCircuitBreaker 3 5) 0 3
    (by decide) (by decide) (by decide)
  simpa using h

/-! ## Claim theorems: client manager and response interpretation -/

theorem doRequest_blocked (cm : ClientManager) (name : String) (now : Nat)
    (t : Nat → AttemptResult) (hs : cm.circuitBreaker.state = "open")
    (hle : now - cm.circuitBreaker.lastFailTime ≤ cm.circuitBreaker.resetTimeout) :
    cm.DoRequest name now t = (⟨.circuitOpen, 0, [], some cm.circuitBreaker⟩, cm) := by
  have hce := canExecute_false_of_open_within _ _ hs hle
  have hd := doWithCircuitBreaker_blocked (cm.GetClient name) cm.circuitBreaker now t hce
  simp only [ClientManager.DoRequest, hd]
  rfl

/-- C9: `NewClientManager` creates one circuit breaker with `maxFailures = 5`
and `resetTimeout = 30s`; every `DoRequest`, whatever the client name, routes
through that single breaker; when it is Open within its reset window, every
request under every name is blocked; in particular the manager returned by
one `DoRequest` gates a subsequent `DoRequest` under any other name. -/
theorem C9_single_breaker_gates_all_requests :
    NewClientManager.circuitBreaker = NewCircuitBreaker 5 (30 * second) ∧
    (∀ (cm : ClientManager) (name : String) (now : Nat) (t : Nat → AttemptResult),
      cm.DoRequest name now t =
        (DoWithCircuitBreaker (cm.GetClient name) (some cm.circuitBreaker) now t,
         { cm with circuitBreaker :=
             (DoWithCircuitBreaker (cm.GetClient name) (some cm.circuitBreaker)
               now t).cb.getD cm.circuitBreaker })) ∧
    (∀ (cm : ClientManager) (name : String) (now : Nat) (t : Nat → AttemptResult),
      cm.circuitBreaker.state = "open" →
      now - cm.circuitBreaker.lastFailTime ≤ cm.circuitBreaker.resetTimeout →
      cm.DoRequest name now t = (⟨.circuitOpen, 0, [], some cm.circuitBreaker⟩, cm)) ∧
    (∀ (cm : ClientManager) (n1 n2 : String) (now now' : Nat)
        (t t' : Nat → AttemptResult),
      (cm.DoRequest n1 now t).2.circuitBreaker.state = "open" →
      now' - (cm.DoRequest n1 now t).2.circuitBreaker.lastFailTime ≤
        (cm.DoRequest n1 now t).2.circuitBreaker.resetTimeout →
      ((cm.DoRequest n1 now t).2).DoRequest n2 now' t' =
        (⟨.circuitOpen, 0, [], some (cm.DoRequest n1 now t).2.circuitBreaker⟩,
         (cm.DoRequest n1 now t).2)) := by
  refine ⟨rfl, fun cm name now t => rfl, ?_, ?_⟩
  · intro cm name now t hs hle
    exact doRequest_blocked cm name now t hs hle
  · intro cm n1 n2 now now' t t' hs hle
    exact doRequest_blocked ((cm.DoRequest n1 now t).2) n2 now' t' hs hle

/-- Witness for C9: a manager whose single breaker is Open 20ns into a 50ns
reset window blocks a request under an arbitrary client name. -/
theorem C9_single_breaker_gates_all_requests_witness :
    ClientManager.DoRequest
      ⟨[], DefaultClientConfig, ⟨5, 100, 5, 50, "open"⟩⟩ "alpha" 120
      (fun _ => .response 200) =
      (⟨.circuitOpen, 0, [], some ⟨5, 100, 5, 50, "open"⟩⟩,
       ⟨[], DefaultClientConfig, ⟨5, 100, 5, 50, "open"⟩⟩) :=
  C9_single_breaker_gates_all_requests.2.2.1
    ⟨[], DefaultClientConfig, ⟨5, 100, 5, 50, "open"⟩⟩ "alpha" 120
    (fun _ => .response 200) rfl (by decide)

/-- C5: for any status outside 200–299, the tool handler returns a
non-error protocol result with the `IsError` flag set whose text is the
failure message embedding the endpoint name, status and body, while the
resource and prompt handlers return hard errors carrying the status and
body. -/
theorem C5_non2xx_kind_dependent :
    ∀ (name uri : String) (status : Nat) (body : String)
      (parsed : Option (List (String × Json))) (pj : Bool),
      status < 200 ∨ 300 ≤ status →
      toolHandleResponse name status body =
        ⟨[⟨"text", toolFailText name status body⟩], true⟩ ∧
      resourceHandleResponse uri status body pj = .error (.statusError status body) ∧
      promptHandleResponse name status body parsed = .error (.statusError status body) := by
  intro name uri status body parsed pj hst
  have hcond : ¬ (200 ≤ status ∧ status < 300) := by omega
  refine ⟨?_, ?_, ?_⟩
  · unfold toolHandleResponse
    rw [if_neg hcond]
  · unfold resourceHandleResponse
    rw [if_neg hcond]
  · unfold promptHandleResponse
    rw [if_neg hcond]

/-- Witness for C5: a 404 with body `nope`. -/
theorem C5_non2xx_kind_dependent_witness :
    toolHandleResponse "ep" 404 "nope" =
      ⟨[⟨"text", toolFailText "ep" 404 "nope"⟩], true⟩ ∧
    resourceHandleResponse "proxy://r" 404 "nope" false =
      .error (.statusError 404 "nope") ∧
    promptHandleResponse "ep" 404 "nope" none = .error (.statusError 404 "nope") :=
  C5_non2xx_kind_dependent "ep" "proxy://r" 404 "nope" none false (Or.inr (by omega))

/-- C8: DataSource interpretation of a 2xx body is deterministic, and the
MIME type is `application/json` with the raw body as text exactly when the
body parses as JSON, `text/plain` with the raw body otherwise. -/
theorem C8_datasource_deterministic_branches :
    ∀ (uri body : String) (status : Nat) (pj : Bool), 200 ≤ status → status < 300 →
      resourceHandleResponse uri status body pj =
        resourceHandleResponse uri status body pj ∧
      (pj = true →
        resourceHandleResponse uri status body pj =
          .ok [⟨uri, "application/json", body⟩]) ∧
      (pj = false →
        resourceHandleResponse uri status body pj = .ok [⟨uri, "text/plain", body⟩]) := by
  intro uri body status pj h1 h2
  refine ⟨rfl, ?_, ?_⟩ <;> intro hpj <;> subst hpj <;>
    unfold resourceHandleResponse <;> rw [if_pos ⟨h1, h2⟩] <;> rfl

/-- Witness for C8: a 200 with a non-JSON body is returned as plain text. -/
theorem C8_datasource_deterministic_branches_witness :
    resourceHandleResponse "proxy://r" 200 "hello" false =
      .ok [⟨"proxy://r", "text/plain", "hello"⟩] :=
  (C8_datasource_deterministic_branches "proxy://r" "hello" 200 false
    (by omega) (by omega)).2.2 rfl

/-! ## Claim theorems: headers and body construction -/

/-- Go map lookup on the header set, mirroring `req.Header.Get`. -/
def lookupHeader (k : String) : List (String × String) → Option String
  | [] => none
  | (k', v) :: rest => if k' = k then some v else lookupHeader k rest

theorem lookupHeader_setHeaderKV_self (n v : String) :
    ∀ hs, lookupHeader n (setHeaderKV hs n v) = some v := by
  intro hs
  induction hs with
  | nil => simp [setHeaderKV, lookupHeader]
  | cons p rest ih =>
      rcases p with ⟨k, w⟩
      by_cases hk : k = n
      · subst hk
        simp [setHeaderKV, lookupHeader]
      · simp [setHeaderKV, lookupHeader, hk, ih]

theorem toolBodyLoop_all_absent (args : List (String × AVal)) :
    ∀ ps acc, (∀ p ∈ ps, p.required = false ∧ alookup p.identifier args = none) →
      toolBodyLoop args ps acc = .ok acc := by
  intro ps
  induction ps with
  | nil => intro acc _; rfl
  | cons q qs ih =>
      intro acc hall
      have hq := hall q (List.mem_cons_self q qs)
      have hrest : ∀ p ∈ qs, p.required = false ∧ alookup p.identifier args = none :=
        fun p hp => hall p (List.mem_cons_of_mem q hp)
      unfold toolBodyLoop
      rw [hq.2, hq.1]
      exact ih acc hrest

/-- C10: whenever the endpoint declares at least one body parameter, the
final header set carries `Content-Type: application/json` — the forced header
being applied last, it overwrites identically named backend defaults and
endpoint headers; and when every declared body parameter is optional and
absent from the argument bag, the body is still `nil` while the header is
forced. -/
theorem C10_content_type_forced :
    (∀ (backend : Backend) (endpoint : Endpoint) (args : List (String × AVal)),
      endpoint.bodyParams ≠ [] →
      lookupHeader "Content-Type" (addHeaders backend endpoint args) =
        some "application/json") ∧
    (∀ (h : HTTPToolHandler) (args : List (String × AVal)),
      (∀ p ∈ h.endpoint.bodyParams,
        p.required = false ∧ alookup p.identifier args = none) →
      h.buildRequestBody args = .ok none) := by
  constructor
  · intro backend endpoint args hne
    have hlen : endpoint.bodyParams.length > 0 :=
      List.length_pos.mpr hne
    unfold addHeaders
    rw [if_pos hlen]
    exact lookupHeader_setHeaderKV_self "Content-Type" "application/json" _
  · intro h args hall
    unfold HTTPToolHandler.buildRequestBody
    by_cases hb : h.endpoint.bodyParams = []
    · rw [if_pos hb]
    · rw [if_neg hb, toolBodyLoop_all_absent args h.endpoint.bodyParams [] hall]
      rfl

/-- Witness for C10: a backend default `Content-Type: text/xml` and an
endpoint constant header `Content-Type: text/csv` are both overwritten; the
single optional body parameter is absent, yet the forced header remains. -/
theorem C10_content_type_forced_witness :
    lookupHeader "Content-Type"
      (addHeaders ⟨"http://b", [⟨CONSTANT, "Content-Type", "text/xml"⟩], []⟩
        ⟨"tool", "webhook", "t", "POST", "/x", "", [⟨CONSTANT, "Content-Type", "text/csv"⟩],
          true, 0, [⟨"string", DYNAMIC, "", "amount", false, ""⟩], [], []⟩
        [("other", .str "1")]) = some "application/json" ∧
    HTTPToolHandler.buildRequestBody
      ⟨⟨"tool", "webhook", "t", "POST", "/x", "", [⟨CONSTANT, "Content-Type", "text/csv"⟩],
          true, 0, [⟨"string", DYNAMIC, "", "amount", false, ""⟩], [], []⟩,
        ⟨"http://b", [⟨CONSTANT, "Content-Type", "text/xml"⟩], []⟩⟩
      [("other", .str "1")] = .ok none :=
  ⟨C10_content_type_forced.1 ⟨"http://b", [⟨CONSTANT, "Content-Type", "text/xml"⟩], []⟩
      ⟨"tool", "webhook", "t", "POST", "/x", "", [⟨CONSTANT, "Content-Type", "text/csv"⟩],
        true, 0, [⟨"string", DYNAMIC, "", "amount", false, ""⟩], [], []⟩
      [("other", .str "1")] (by decide),
   C10_content_type_forced.2
      ⟨⟨"tool", "webhook", "t", "POST", "/x", "", [⟨CONSTANT, "Content-Type", "text/csv"⟩],
          true, 0, [⟨"string", DYNAMIC, "", "amount", false, ""⟩], [], []⟩,
        ⟨"http://b", [⟨CONSTANT, "Content-Type", "text/xml"⟩], []⟩⟩
      [("other", .str "1")] (by decide)⟩

/-! ## Claim C4: required-missing aborts (path and body only) -/

theorem toolBuildURLLoop_error_of_missing (args : List (String × AVal)) :
    ∀ ps url, (∃ p, p ∈ ps ∧ p.required = true ∧ alookup p.identifier args = none) →
      ∃ id, toolBuildURLLoop args ps url = .error (.missingPathParam id) := by
  intro ps
  induction ps with
  | nil =>
      rintro url ⟨p, hp, _⟩
      exact absurd hp (List.not_mem_nil p)
  | cons q qs ih =>
      rintro url ⟨p, hp, hreq, habs⟩
      rcases List.mem_cons.mp hp with rfl | hp'
      · refine ⟨p.identifier, ?_⟩
        unfold toolBuildURLLoop
        rw [habs, hreq]
        rfl
      · cases hq : alookup q.identifier args with
        | some v =>
            obtain ⟨id, hid⟩ := ih
              (strReplaceAll url ("\x7b" ++ q.identifier ++ "\x7d") (govFmt v))
              ⟨p, hp', hreq, habs⟩
            refine ⟨id, ?_⟩
            unfold toolBuildURLLoop
            rw [hq]
            exact hid
        | none =>
            by_cases hqr : q.required = true
            · refine ⟨q.identifier, ?_⟩
              unfold toolBuildURLLoop
              rw [hq, hqr]
              rfl
            · obtain ⟨id, hid⟩ := ih url ⟨p, hp', hreq, habs⟩
              refine ⟨id, ?_⟩
              unfold toolBuildURLLoop
              rw [hq, Bool.of_not_eq_true hqr]
              exact hid

theorem toolBuildURLLoop_ok_of_present (args : List (String × AVal)) :
    ∀ ps url, (∀ p ∈ ps, p.required = true → alookup p.identifier args ≠ none) →
      ∃ u, toolBuildURLLoop args ps url = .ok u := by
  intro ps
  induction ps with
  | nil => intro url _; exact ⟨url, rfl⟩
  | cons q qs ih =>
      intro url hall
      have hrest : ∀ p ∈ qs, p.required = true → alookup p.identifier args ≠ none :=
        fun p hp => hall p (List.mem_cons_of_mem q hp)
      cases hq : alookup q.identifier args with
      | some v =>
          obtain ⟨u, hu⟩ := ih
            (strReplaceAll url ("\x7b" ++ q.identifier ++ "\x7d") (govFmt v)) hrest
          refine ⟨u, ?_⟩
          unfold toolBuildURLLoop
          rw [hq]
          exact hu
      | none =>
          have hqr : q.required = false := by
            rcases Bool.eq_false_or_eq_true q.required with h | h
            · exact absurd hq (hall q (List.mem_cons_self q qs) h)
            · exact h
          obtain ⟨u, hu⟩ := ih url hrest
          refine ⟨u, ?_⟩
          unfold toolBuildURLLoop
          rw [hq, hqr]
          exact hu

theorem toolBodyLoop_error_of_missing (args : List (String × AVal)) :
    ∀ ps acc, (∃ p, p ∈ ps ∧ p.required = true ∧ alookup p.identifier args = none) →
      ∃ id, toolBodyLoop args ps acc = .error (.missingBodyParam id) := by
  intro ps
  induction ps with
  | nil =>
      rintro acc ⟨p, hp, _⟩
      exact absurd hp (List.not_mem_nil p)
  | cons q qs ih =>
      rintro acc ⟨p, hp, hreq, habs⟩
      rcases List.mem_cons.mp hp with rfl | hp'
      · refine ⟨p.identifier, ?_⟩
        unfold toolBodyLoop
        rw [habs, hreq]
        rfl
      · cases hq : alookup q.identifier args with
        | some v =>
            obtain ⟨id, hid⟩ := ih (setAssoc acc q.identifier v) ⟨p, hp', hreq, habs⟩
            refine ⟨id, ?_⟩
            unfold toolBodyLoop
            rw [hq]
            exact hid
        | none =>
            by_cases hqr : q.required = true
            · refine ⟨q.identifier, ?_⟩
              unfold toolBodyLoop
              rw [hq, hqr]
              rfl
            · obtain ⟨id, hid⟩ := ih acc ⟨p, hp', hreq, habs⟩
              refine ⟨id, ?_⟩
              unfold toolBodyLoop
              rw [hq, Bool.of_not_eq_true hqr]
              exact hid

theorem toolBodyLoop_ok_of_present (args : List (String × AVal)) :
    ∀ ps acc, (∀ p ∈ ps, p.required = true → alookup p.identifier args ≠ none) →
      ∃ b, toolBodyLoop args ps acc = .ok b := by
  intro ps
  induction ps with
  | nil => intro acc _; exact ⟨acc, rfl⟩
  | cons q qs ih =>
      intro acc hall
      have hrest : ∀ p ∈ qs, p.required = true → alookup p.identifier args ≠ none :=
        fun p hp => hall p (List.mem_cons_of_mem q hp)
      cases hq : alookup q.identifier args with
      | some v =>
          obtain ⟨b, hb⟩ := ih (setAssoc acc q.identifier v) hrest
          refine ⟨b, ?_⟩
          unfold toolBodyLoop
          rw [hq]
          exact hb
      | none =>
          have hqr : q.required = false := by
            rcases Bool.eq_false_or_eq_true q.required with h | h
            · exact absurd hq (hall q (List.mem_cons_self q qs) h)
            · exact h
          obtain ⟨b, hb⟩ := ih acc hrest
          refine ⟨b, ?_⟩
          unfold toolBodyLoop
          rw [hq, hqr]
          exact hb

/-- C4 counterexample: an endpoint whose only parameter is a *query*
parameter that is required, dynamic, and absent from the argument bag.  The
claim predicts the invocation fails with a missing-required-parameter error
and zero network attempts; the tool handler instead silently omits the
parameter and performs the HTTP call (one network attempt, ordinary
result).  The request-creation oracle returns `none`, matching Go on the
valid method `GET` and well-formed URL `http://api/find`. -/
theorem C4_counterexample :
    (HTTPToolHandler.Handler
      ⟨⟨"tool", "webhook", "search", "GET", "/find", "", [], true, 0, [],
          [⟨"string", DYNAMIC, "", "q", true, ""⟩], []⟩,
        ⟨"http://api", [], []⟩⟩
      [] (fun _ _ => none) (fun _ => .resp 200 "ok")).2 = 1 ∧
    (HTTPToolHandler.Handler
      ⟨⟨"tool", "webhook", "search", "GET", "/find", "", [], true, 0, [],
          [⟨"string", DYNAMIC, "", "q", true, ""⟩], []⟩,
        ⟨"http://api", [], []⟩⟩
      [] (fun _ _ => none) (fun _ => .resp 200 "ok")).1 =
      .ok (toolHandleResponse "search" 200 "ok") := by
  constructor <;> rfl

/-- C4 (amended): a required parameter missing from the argument bag aborts
the invocation with a missing-required-parameter error before any network
call (zero attempts) — for the *path* and *body* placement groups; hence an
HTTP request is only sent when every required path and body parameter is
present.  Query parameters are never checked for required-ness: they are
silently omitted when absent, and provided request creation succeeds, the
HTTP call is performed (one network attempt) regardless of any missing query
parameters. -/
theorem C4_required_missing_aborts_path_body :
    (∀ (h : HTTPToolHandler) (args : List (String × AVal))
        (newReq : String → String → Option String)
        (transport : BuiltRequest → HTTPResult),
      (∃ p, p ∈ h.endpoint.pathParameters ∧ p.required = true ∧
        alookup p.identifier args = none) →
      ∃ id, h.Handler args newReq transport =
        (.error (.urlError (.missingPathParam id)), 0)) ∧
    (∀ (h : HTTPToolHandler) (args : List (String × AVal))
        (newReq : String → String → Option String)
        (transport : BuiltRequest → HTTPResult),
      (∀ p ∈ h.endpoint.pathParameters, p.required = true →
        alookup p.identifier args ≠ none) →
      (∃ p, p ∈ h.endpoint.bodyParams ∧ p.required = true ∧
        alookup p.identifier args = none) →
      ∃ id, h.Handler args newReq transport =
        (.error (.bodyError (.missingBodyParam id)), 0)) ∧
    (∀ (h : HTTPToolHandler) (args : List (String × AVal))
        (newReq : String → String → Option String)
        (transport : BuiltRequest → HTTPResult),
      (h.Handler args newReq transport).2 = 1 →
      (∀ p ∈ h.endpoint.pathParameters, p.required = true →
        alookup p.identifier args ≠ none) ∧
      (∀ p ∈ h.endpoint.bodyParams, p.required = true →
        alookup p.identifier args ≠ none)) ∧
    (∀ (h : HTTPToolHandler) (args : List (String × AVal))
        (newReq : String → String → Option String)
        (transport : BuiltRequest → HTTPResult),
      (∀ p ∈ h.endpoint.pathParameters, p.required = true →
        alookup p.identifier args ≠ none) →
      (∀ p ∈ h.endpoint.bodyParams, p.required = true →
        alookup p.identifier args ≠ none) →
      (∀ mth url, newReq mth url = none) →
      (h.Handler args newReq transport).2 = 1) := by
  have habort1 : ∀ (h : HTTPToolHandler) (args : List (String × AVal))
      (newReq : String → String → Option String)
      (transport : BuiltRequest → HTTPResult),
      (∃ p, p ∈ h.endpoint.pathParameters ∧ p.required = true ∧
        alookup p.identifier args = none) →
      ∃ id, h.Handler args newReq transport =
        (.error (.urlError (.missingPathParam id)), 0) := by
    intro h args newReq transport hmiss
    obtain ⟨id, hid⟩ := toolBuildURLLoop_error_of_missing args
      h.endpoint.pathParameters (h.backend.baseURL ++ h.endpoint.path) hmiss
    refine ⟨id, ?_⟩
    unfold HTTPToolHandler.Handler HTTPToolHandler.buildURL
    rw [hid]
  have habort2 : ∀ (h : HTTPToolHandler) (args : List (String × AVal))
      (newReq : String → String → Option String)
      (transport : BuiltRequest → HTTPResult),
      (∀ p ∈ h.endpoint.pathParameters, p.required = true →
        alookup p.identifier args ≠ none) →
      (∃ p, p ∈ h.endpoint.bodyParams ∧ p.required = true ∧
        alookup p.identifier args = none) →
      ∃ id, h.Handler args newReq transport =
        (.error (.bodyError (.missingBodyParam id)), 0) := by
    intro h args newReq transport hpath hmiss
    obtain ⟨u, hu⟩ := toolBuildURLLoop_ok_of_present args
      h.endpoint.pathParameters (h.backend.baseURL ++ h.endpoint.path) hpath
    have hne : h.endpoint.bodyParams ≠ [] := by
      obtain ⟨p, hp, _, _⟩ := hmiss
      exact List.ne_nil_of_mem hp
    obtain ⟨id, hid⟩ := toolBodyLoop_error_of_missing args
      h.endpoint.bodyParams [] hmiss
    refine ⟨id, ?_⟩
    unfold HTTPToolHandler.Handler HTTPToolHandler.buildURL
      HTTPToolHandler.buildRequestBody
    rw [hu, if_neg hne, hid]
  refine ⟨habort1, habort2, ?_, ?_⟩
  · intro h args newReq transport hatt
    have hpath : ∀ p ∈ h.endpoint.pathParameters, p.required = true →
        alookup p.identifier args ≠ none := by
      by_contra hcon
      push_neg at hcon
      obtain ⟨p, hp, hreq, habs⟩ := hcon
      obtain ⟨id, hid⟩ := habort1 h args newReq transport ⟨p, hp, hreq, habs⟩
      rw [hid] at hatt
      exact absurd hatt (by simp)
    refine ⟨hpath, ?_⟩
    by_contra hcon
    push_neg at hcon
    obtain ⟨p, hp, hreq, habs⟩ := hcon
    obtain ⟨id, hid⟩ := habort2 h args newReq transport hpath ⟨p, hp, hreq, habs⟩
    rw [hid] at hatt
    exact absurd hatt (by simp)
  · intro h args newReq transport hpath hbody hnr
    obtain ⟨u, hu⟩ := toolBuildURLLoop_ok_of_present args
      h.endpoint.pathParameters (h.backend.baseURL ++ h.endpoint.path) hpath
    unfold HTTPToolHandler.Handler HTTPToolHandler.buildURL
      HTTPToolHandler.buildRequestBody
    rw [hu]
    by_cases hne : h.endpoint.bodyParams = []
    · rw [if_pos hne]
      dsimp only
      rw [hnr]
      dsimp only
      split <;> rfl
    · rw [if_neg hne]
      obtain ⟨b, hb⟩ := toolBodyLoop_ok_of_present args h.endpoint.bodyParams [] hbody
      rw [hb]
      by_cases hbe : b = []
      · dsimp only
        rw [if_pos hbe]
        dsimp only
        rw [hnr]
        dsimp only
        split <;> rfl
      · dsimp only
        rw [if_neg hbe]
        dsimp only
        rw [hnr]
        dsimp only
        split <;> rfl

/-- Witness for C4 (amended): a required dynamic path parameter `uid`
missing from an empty argument bag aborts with the missing-parameter error
and zero network attempts. -/
theorem C4_required_missing_aborts_path_body_witness :
    ∃ id, HTTPToolHandler.Handler
      ⟨⟨"tool", "webhook", "get_user", "GET", "/users/\x7buid\x7d", "", [], true, 0,
          [], [], [⟨"string", DYNAMIC, "", "uid", true, ""⟩]⟩,
        ⟨"http://api", [], []⟩⟩
      [] (fun _ _ => none) (fun _ => .resp 200 "ok") =
      (.error (.urlError (.missingPathParam id)), 0) :=
  C4_required_missing_aborts_path_body.1
    ⟨⟨"tool", "webhook", "get_user", "GET", "/users/\x7buid\x7d", "", [], true, 0,
        [], [], [⟨"string", DYNAMIC, "", "uid", true, ""⟩]⟩,
      ⟨"http://api", [], []⟩⟩
    [] (fun _ _ => none) (fun _ => .resp 200 "ok")
    ⟨⟨"string", DYNAMIC, "", "uid", true, ""⟩, by decide, rfl, rfl⟩

/-! ## Claim C3: constant-parameter resolution -/

/-- C3 counterexample: the tool handler's body builder takes a declared
`Constant` parameter's value from the caller's argument bag (first
conjunct), not from the declared constant `secret` (second conjunct), and
the resource handler treats an empty constant value as absent rather than
resolving it to the empty string (third conjunct). -/
theorem C3_counterexample :
    HTTPToolHandler.buildRequestBody
      ⟨⟨"tool", "webhook", "pay", "POST", "/pay", "", [], true, 0,
          [⟨"string", CONSTANT, "", "tok", false, "secret"⟩], [], []⟩,
        ⟨"http://api", [], []⟩⟩
      [("tok", .str "attacker")] = .ok (some [("tok", .str "attacker")]) ∧
    AVal.str "attacker" ≠ AVal.str "secret" ∧
    resolveResourceParam ⟨"string", CONSTANT, "", "k", true, ""⟩ [("k", .str "x")] =
      none := by
  refine ⟨rfl, by decide, rfl⟩

/-- C3 (amended): only the *resource* handler resolves `Constant`
parameters from the declared constant value, and only when that value is
non-empty — then the result is independent of the argument bag in every
placement group; an empty constant value is treated as absent; the *tool*
handler ignores `value_type` and resolves every parameter, `Constant`
included, from the caller's argument bag. -/
theorem C3_constant_resolution_amended :
    (∀ (p : Param) (args args2 : List (String × AVal)),
      p.valueType = CONSTANT → p.value ≠ "" →
      resolveResourceParam p args = some (.str p.value) ∧
      resolveResourceParam p args = resolveResourceParam p args2) ∧
    (∀ (p : Param) (args : List (String × AVal)),
      p.valueType = CONSTANT → p.value = "" → resolveResourceParam p args = none) ∧
    (∀ (p : Param) (args acc : List (String × AVal)) (v : AVal),
      alookup p.identifier args = some v →
      toolBodyLoop args [p] acc = .ok (setAssoc acc p.identifier v)) := by
  refine ⟨?_, ?_, ?_⟩
  · intro p args args2 hconst hne
    have h1 : resolveResourceParam p args = some (.str p.value) := by
      unfold resolveResourceParam
      rw [if_pos hconst, if_pos hne]
    have h2 : resolveResourceParam p args2 = some (.str p.value) := by
      unfold resolveResourceParam
      rw [if_pos hconst, if_pos hne]
    exact ⟨h1, h1.trans h2.symm⟩
  · intro p args hconst he
    unfold resolveResourceParam
    rw [if_pos hconst, if_neg (by rw [he]; exact fun h => h rfl)]
  · intro p args acc v hv
    unfold toolBodyLoop
    rw [hv]
    rfl

/-- Witness for C3 (amended): a non-empty constant `apiKey = secret`
resolves to `secret` for the resource handler under two different argument
bags, one of which rebinds the same identifier. -/
theorem C3_constant_resolution_amended_witness :
    resolveResourceParam ⟨"string", CONSTANT, "", "apiKey", true, "secret"⟩
        [("apiKey", .str "attacker")] = some (.str "secret") ∧
    resolveResourceParam ⟨"string", CONSTANT, "", "apiKey", true, "secret"⟩
        [("apiKey", .str "attacker")] =
      resolveResourceParam ⟨"string", CONSTANT, "", "apiKey", true, "secret"⟩ [] :=
  C3_constant_resolution_amended.1
    ⟨"string", CONSTANT, "", "apiKey", true, "secret"⟩
    [("apiKey", .str "attacker")] [] rfl (by decide)

/-! ## Claim C7: URL building round trip -/

theorem replaceAllAux_append (old new : List Char) (head : Char) (tl : List Char)
    (hold : old = head :: tl) :
    ∀ (base : List Char) (f : Nat) (s : List Char), (∀ c ∈ base, c ≠ head) →
      replaceAllAux old new (base.length + f) (base ++ s) =
        base ++ replaceAllAux old new f s := by
  intro base
  induction base with
  | nil =>
      intro f s _
      simp
  | cons c cs ih =>
      intro f s hb
      have hc : c ≠ head := hb c (List.mem_cons_self c cs)
      have hcond : ¬ (old ≠ [] ∧ hasLead old (c :: (cs ++ s)) = true) := by
        rintro ⟨_, hlead⟩
        rw [hold] at hlead
        simp only [hasLead, Bool.and_eq_true, decide_eq_true_eq] at hlead
        exact hc hlead.1.symm
      have hlen : (c :: cs).length + f = (cs.length + f) + 1 := by
        simp only [List.length_cons]
        omega
      rw [hlen, List.cons_append, replaceAllAux, if_neg hcond,
        ih f s (fun c' hc' => hb c' (List.mem_cons_of_mem c hc'))]
      rfl

theorem strReplaceAll_append (base s old new : String) (head : Char)
    (tl : List Char) (hold : old.data = head :: tl)
    (hb : ∀ c ∈ base.data, c ≠ head) :
    strReplaceAll (base ++ s) old new = base ++ strReplaceAll s old new := by
  show String.mk (replaceAllAux old.data new.data (base ++ s).data.length
      (base ++ s).data) = base ++ strReplaceAll s old new
  have hdata : (base ++ s).data = base.data ++ s.data := String.data_append base s
  rw [hdata, List.length_append,
    replaceAllAux_append old.data new.data head tl hold base.data
      s.data.length s.data hb]
  rfl

/-- C7: the tool handler's URL starts from `backend.BaseURL + endpoint.Path`
(no path parameters leave it untouched); each path parameter found in the
argument bag replaces the literal `\x7bidentifier\x7d` substring with the
value's `%v` form; and for the template `/users/\x7bid\x7d/orders/\x7boid\x7d`
with `id = 42` and `oid = 7`, the built URL is exactly
`baseURL ++ "/users/42/orders/7"` for every base URL free of the placeholder
opening brace. -/
theorem C7_url_round_trip :
    (∀ (h : HTTPToolHandler) (args : List (String × AVal)),
      h.endpoint.pathParameters = [] →
      h.buildURL args = .ok (h.backend.baseURL ++ h.endpoint.path)) ∧
    (∀ (args : List (String × AVal)) (p : Param) (ps : List Param)
        (url : String) (v : AVal),
      alookup p.identifier args = some v →
      toolBuildURLLoop args (p :: ps) url =
        toolBuildURLLoop args ps
          (strReplaceAll url ("\x7b" ++ p.identifier ++ "\x7d") (govFmt v))) ∧
    (∀ baseURL : String, (∀ c ∈ baseURL.data, c ≠ Char.ofNat 123) →
      HTTPToolHandler.buildURL
        ⟨⟨"tool", "webhook", "orders", "GET",
            "/users/\x7bid\x7d/orders/\x7boid\x7d", "", [], true, 0, [], [],
            [⟨"number", DYNAMIC, "", "id", true, ""⟩,
             ⟨"number", DYNAMIC, "", "oid", true, ""⟩]⟩,
          ⟨baseURL, [], []⟩⟩
        [("id", .num 42), ("oid", .num 7)] =
      .ok (baseURL ++ "/users/42/orders/7")) := by
  refine ⟨?_, ?_, ?_⟩
  · intro h args hpp
    unfold HTTPToolHandler.buildURL
    rw [hpp]
    rfl
  · intro args p ps url v hv
    conv_lhs => rw [toolBuildURLLoop]
    rw [hv]
  · intro baseURL hb
    unfold HTTPToolHandler.buildURL
    dsimp only
    rw [toolBuildURLLoop]
    rw [show alookup "id" [("id", AVal.num 42), ("oid", AVal.num 7)] =
      some (AVal.num 42) from rfl]
    dsimp only
    rw [show ("\x7b" ++ "id" ++ "\x7d" : String) = "\x7bid\x7d" from by decide]
    rw [strReplaceAll_append baseURL "/users/\x7bid\x7d/orders/\x7boid\x7d"
      "\x7bid\x7d" (govFmt (AVal.num 42)) (Char.ofNat 123) ("id\x7d").data
      (by decide) hb]
    rw [show strReplaceAll "/users/\x7bid\x7d/orders/\x7boid\x7d" "\x7bid\x7d"
      (govFmt (AVal.num 42)) = "/users/42/orders/\x7boid\x7d" from by decide]
    rw [toolBuildURLLoop]
    rw [show alookup "oid" [("id", AVal.num 42), ("oid", AVal.num 7)] =
      some (AVal.num 7) from rfl]
    dsimp only
    rw [show ("\x7b" ++ "oid" ++ "\x7d" : String) = "\x7boid\x7d" from by decide]
    rw [strReplaceAll_append baseURL "/users/42/orders/\x7boid\x7d"
      "\x7boid\x7d" (govFmt (AVal.num 7)) (Char.ofNat 123) ("oid\x7d").data
      (by decide) hb]
    rw [show strReplaceAll "/users/42/orders/\x7boid\x7d" "\x7boid\x7d"
      (govFmt (AVal.num 7)) = "/users/42/orders/7" from by decide]
    rfl

/-- Witness for C7: the concrete base URL `https://api.example.com`. -/
theorem C7_url_round_trip_witness :
    HTTPToolHandler.buildURL
      ⟨⟨"tool", "webhook", "orders", "GET",
          "/users/\x7bid\x7d/orders/\x7boid\x7d", "", [], true, 0, [], [],
          [⟨"number", DYNAMIC, "", "id", true, ""⟩,
           ⟨"number", DYNAMIC, "", "oid", true, ""⟩]⟩,
        ⟨"https://api.example.com", [], []⟩⟩
      [("id", .num 42), ("oid", .num 7)] =
    .ok ("https://api.example.com" ++ "/users/42/orders/7") :=
  C7_url_round_trip.2.2 "https://api.example.com" (by decide)

/-! ## Claim C6: template (prompt) interpretation -/

/-- C6: in a 2xx JSON prompt body, a message element with a string `role`
has it mapped case-insensitively (assistant to assistant, everything else —
including unknown strings — to user); a missing `role` defaults to user;
elements whose `content` parses to nothing are dropped, and content parses
exactly from a plain string or a `type = "text"` object with a string
`text`; when zero messages survive, the result is a single user message
holding the re-serialized JSON; and a non-JSON-object body yields a single
user message holding the raw body. -/
theorem C6_template_interpretation :
    (∀ (fields : List (String × Json)) (s : String) (m : PromptMessage),
      jlookup "role" fields = some (.str s) →
      parsePromptMessage fields = some m →
      m.role = (if govToLower s = "assistant" then RoleAssistant else RoleUser)) ∧
    (∀ (fields : List (String × Json)) (m : PromptMessage),
      jlookup "role" fields = none →
      parsePromptMessage fields = some m → m.role = RoleUser) ∧
    (∀ fields : List (String × Json),
      parseContent fields = none → parsePromptMessage fields = none) ∧
    (∀ (fields : List (String × Json)) (c : TextContent),
      parseContent fields = some c →
      c.type = "text" ∧
      ((∃ s, jlookup "content" fields = some (.str s) ∧ c.text = s) ∨
       (∃ cm txt, jlookup "content" fields = some (.obj cm) ∧
         jlookup "type" cm = some (.str "text") ∧
         jlookup "text" cm = some (.str txt) ∧ c.text = txt))) ∧
    (∀ (name : String) (fields : List (String × Json)),
      extractMessages fields = [] →
      (parseStructuredPrompt name fields).messages =
        [⟨RoleUser, ⟨"text", jsonSerialize (.obj fields)⟩⟩]) ∧
    (∀ (name body : String) (status : Nat), 200 ≤ status → status < 300 →
      promptHandleResponse name status body none =
        .ok ⟨"Generated prompt from " ++ name, [⟨RoleUser, ⟨"text", body⟩⟩]⟩) := by
  have hrole : ∀ (fields : List (String × Json)) (m : PromptMessage),
      parsePromptMessage fields = some m → m.role = parseRole fields := by
    intro fields m hp
    unfold parsePromptMessage at hp
    cases hpc : parseContent fields with
    | none => rw [hpc] at hp; exact absurd hp (by simp)
    | some c =>
        rw [hpc] at hp
        simp only [Option.some.injEq] at hp
        rw [← hp]
  refine ⟨?_, ?_, ?_, ?_, ?_, ?_⟩
  · intro fields s m hr hp
    rw [hrole fields m hp]
    unfold parseRole
    rw [hr]
    dsimp only
    split_ifs with h1 h2
    · exact absurd (h1.symm.trans h2) (by decide)
    · rfl
    · rfl
    · rfl
  · intro fields m hr hp
    rw [hrole fields m hp]
    unfold parseRole
    rw [hr]
  · intro fields hpc
    unfold parsePromptMessage
    rw [hpc]
  · intro fields c hpc
    unfold parseContent at hpc
    cases hcl : jlookup "content" fields with
    | none => rw [hcl] at hpc; exact absurd hpc (by simp)
    | some j =>
        rw [hcl] at hpc
        cases j with
        | str s =>
            simp only [Option.some.injEq] at hpc
            exact ⟨by rw [← hpc], Or.inl ⟨s, rfl, by rw [← hpc]⟩⟩
        | obj cm =>
            dsimp only at hpc
            cases ht : jlookup "type" cm with
            | none => rw [ht] at hpc; exact absurd hpc (by simp)
            | some jt =>
                rw [ht] at hpc
                cases jt with
                | str t =>
                    dsimp only at hpc
                    by_cases hts : t = "text"
                    · rw [if_pos hts] at hpc
                      cases htx : jlookup "text" cm with
                      | none => rw [htx] at hpc; exact absurd hpc (by simp)
                      | some jx =>
                          rw [htx] at hpc
                          cases jx with
                          | str txt =>
                              simp only [Option.some.injEq] at hpc
                              refine ⟨by rw [← hpc], Or.inr ⟨cm, txt, rfl, ?_, ?_, ?_⟩⟩
                              · rw [ht, hts]
                              · exact htx
                              · rw [← hpc]
                          | null => exact absurd hpc (by simp)
                          | jbool b => exact absurd hpc (by simp)
                          | num n => exact absurd hpc (by simp)
                          | arr xs => exact absurd hpc (by simp)
                          | obj fs => exact absurd hpc (by simp)
                    · rw [if_neg hts] at hpc
                      exact absurd hpc (by simp)
                | null => exact absurd hpc (by simp)
                | jbool b => exact absurd hpc (by simp)
                | num n => exact absurd hpc (by simp)
                | arr xs => exact absurd hpc (by simp)
                | obj fs => exact absurd hpc (by simp)
        | null => exact absurd hpc (by simp)
        | jbool b => exact absurd hpc (by simp)
        | num n => exact absurd hpc (by simp)
        | arr xs => exact absurd hpc (by simp)
  · intro name fields hemp
    unfold parseStructuredPrompt
    rw [hemp]
    rfl
  · intro name body status h1 h2
    unfold promptHandleResponse
    rw [if_pos ⟨h1, h2⟩]

/-- Witness for C6: the spec's own example message
`\x7b"role": "Assistant", "content": "hi"\x7d` parses to one assistant
message with text `hi`. -/
theorem C6_template_interpretation_witness :
    PromptMessage.role ⟨RoleAssistant, ⟨"text", "hi"⟩⟩ =
      (if govToLower "Assistant" = "assistant" then RoleAssistant else RoleUser) :=
  C6_template_interpretation.1
    [("role", .str "Assistant"), ("content", .str "hi")] "Assistant"
    ⟨RoleAssistant, ⟨"text", "hi"⟩⟩ rfl (by decide)

end MCPProxy
